import Mathlib

set_option maxRecDepth 8000

namespace Tide

/-! Shallow embedding of the `tide` game server core.

The definitions below are translated from `src/api_types.rs`,
`src/game_control.rs` and `src/utils.rs`.  Machine integers are modelled
as `Nat`/`Int` with explicit `% 2 ^ w` where overflow matters (the `u64`
timestamp subtraction, the `u32` id counter).  Rust panics
(`unwrap`, explicit `panic!`) are modelled by `Option`: `none` is a panic.
The `f32` vector geometry (`nalgebra::Vector2<f32>` and the
`ncollide2d` ray test `projectile_ray_scans_enemy`) is abstracted as a
`Geom` structure: the control flow of the simulation core never inspects
vectors, it only threads them through `add`/`smul`/`normalize` and
branches on the boolean hit test, so every theorem is proved for all
geometries. -/

inductive ConnectionStatus where
  | Unspecified
  | Connected
  | Disconnected
deriving DecidableEq, Repr

inductive AuthorizationStatus where
  | Unspecified
  | GoodStanding
  | FoulPlayDetected
deriving DecidableEq, Repr

inductive EnemyStatus where
  | Unspecified
  | Alive
  | Dead
deriving DecidableEq, Repr

inductive ProjectileType where
  | HitScan0
  | Projectile0
deriving DecidableEq, Repr

abbrev PlayerId := String

/-- Rust `pub type Health = isize;` (signed). -/
abbrev Health := Int

/-- Static per-type projectile data, from `api_types::projectile_info`.
`speed` is `f32` in Rust, modelled as `Rat`. -/
structure ProjectileInfo where
  speed : Option Rat
  damage : Health
  num_penetrations : Option Int
deriving DecidableEq, Repr

/-- The static `PROJECTILE_INFOS` table and its lookup, from
`api_types.rs` (`HitScan0 = 0`, `Projectile0 = 1`). -/
def lookup_projectile_info : ProjectileType → ProjectileInfo
  | .HitScan0 => { speed := none, damage := 1, num_penetrations := some 1 }
  | .Projectile0 => { speed := some 2, damage := 10, num_penetrations := some 1 }

/-- `PositionStamped { xy: Vec2, time_ms: u64 }`; `time_ms` is a `u64`
kept as a `Nat` (all stored values are `< 2 ^ 64`). -/
structure PositionStamped (V : Type) where
  xy : V
  time_ms : Nat
deriving DecidableEq

structure ProjectileSnaphot (V : Type) where
  projectile_type : ProjectileType
  origin : PositionStamped V
  vel : V
deriving DecidableEq

structure Player (V : Type) where
  position : PositionStamped V
  connection_status : ConnectionStatus
  authr_status : AuthorizationStatus
deriving DecidableEq

structure Enemy (V : Type) where
  enemy_id : Int
  position : PositionStamped V
  health : Health
  status : EnemyStatus
deriving DecidableEq

/-- `PlayerProjectile` as used by `game_control.rs`: the in-flight record
carries a per-instance `current_info` copy (`current_info:
projectile_info.clone()`), whose penetration budget is mutated
independently of the static table. -/
structure PlayerProjectile (V : Type) where
  player_id : PlayerId
  projectile : ProjectileSnaphot V
  current_info : ProjectileInfo
deriving DecidableEq

/-- `GameState`: the `HashMap<PlayerId, Player>` is modelled as an
association list with unique-key lookup semantics. -/
structure GameState (V : Type) where
  players : List (PlayerId × Player V)
  enemies : List (Enemy V)
  projectiles : List (PlayerProjectile V)
deriving DecidableEq

/-- Client intents dispatched by `handle_player_update`. -/
inductive ClientUpdate (V : Type) where
  | PlayerConnected
  | PlayerDisconnected
  | PositionUpdate (position : PositionStamped V)
  | ProjectileCreated (proj : ProjectileSnaphot V)

/-- Abstraction of the `f32` plane geometry: vector arithmetic
(`nalgebra`) and the pure boolean ray test `projectile_ray_scans_enemy`
(`ncollide2d` AABB-vs-ray).  The simulation core only branches on the
Bool returned by `scans`. -/
structure Geom where
  V : Type
  zero : V
  add : V → V → V
  smul : V → Rat → V
  normalize : V → V
  scans : ProjectileSnaphot V → Enemy V → Bool

/-- HashMap `get`/`get_mut`: first (unique) matching key. -/
def lookupPlayer {V : Type} (ps : List (PlayerId × Player V)) (id : PlayerId) :
    Option (Player V) :=
  (ps.find? (fun kv => kv.1 == id)).map (fun kv => kv.2)

/-- In-place mutation of the entry at `id` (HashMap `get_mut` + write). -/
def setPlayer {V : Type} (ps : List (PlayerId × Player V)) (id : PlayerId)
    (p : Player V) : List (PlayerId × Player V) :=
  ps.map (fun kv => if kv.1 == id then (kv.1, p) else kv)

/-- HashMap `insert` of a fresh key. -/
def insertPlayer {V : Type} (ps : List (PlayerId × Player V)) (id : PlayerId)
    (p : Player V) : List (PlayerId × Player V) :=
  ps ++ [(id, p)]

/-- HashMap `remove`. -/
def removePlayer {V : Type} (ps : List (PlayerId × Player V)) (id : PlayerId) :
    List (PlayerId × Player V) :=
  ps.filter (fun kv => !(kv.1 == id))

/-- `GameController::try_connect_player` (game_control.rs:460-491).
Returns the `Result` together with the (possibly mutated) state; the
error path returns before touching `self.state`. -/
def try_connect_player (G : Geom) (s : GameState G.V) (id : PlayerId) :
    Except String Unit × GameState G.V :=
  match lookupPlayer s.players id with
  | some player =>
    match player.connection_status with
    | .Disconnected =>
      let ps := setPlayer s.players id { player with connection_status := .Connected }
      (.ok (), { s with players := ps })
    | _ =>
      (.error ("cannot have duplicate client addresses, got [" ++ id ++ "]"), s)
  | none =>
    let fresh : Player G.V :=
      { position := { xy := G.zero, time_ms := 0 },
        connection_status := .Connected,
        authr_status := .GoodStanding }
    (.ok (), { s with players := insertPlayer s.players id fresh })

/-- `GameController::disconnect_player` (game_control.rs:493-499).
`ip_ids` mirrors `cfg!(feature = "ip-address-player-ids")`; in that
configuration `get_player` unwraps a missing entry, which is a panic
(`none`). -/
def disconnect_player (G : Geom) (ip_ids : Bool) (s : GameState G.V)
    (id : PlayerId) : Option (GameState G.V) :=
  if ip_ids then
    match lookupPlayer s.players id with
    | none => none
    | some p =>
      let ps := setPlayer s.players id { p with connection_status := .Disconnected }
      some { s with players := ps }
  else
    some { s with players := removePlayer s.players id }

/-- `GameController::handle_projectile_created` (game_control.rs:423-458).
The `None`-speed (hitscan) arm partitions the enemies by the ray test and
damages every enemy in the hit partition in place, which is the same
mutation as mapping over the list; the `Some`-speed arm appends one new
`PlayerProjectile` whose velocity is `vel.normalize().scale(speed)` and
whose `current_info` is a copy of the static table entry. -/
def handle_projectile_created (G : Geom) (s : GameState G.V) (id : PlayerId)
    (projectile : ProjectileSnaphot G.V) : GameState G.V :=
  let projectile_info := lookup_projectile_info projectile.projectile_type
  match projectile_info.speed with
  | some speed =>
    { s with projectiles := s.projectiles ++
      [{ player_id := id,
         projectile :=
           { projectile_type := projectile.projectile_type,
             origin := projectile.origin,
             vel := G.smul (G.normalize projectile.vel) speed },
         current_info := projectile_info }] }
  | none =>
    { s with enemies := s.enemies.map (fun enemy =>
        if G.scans projectile enemy then
          let health := enemy.health - projectile_info.damage
          { enemy with health := health,
                       status := if health ≤ 0 then .Dead else enemy.status }
        else enemy) }

/-- `GameController::handle_player_update` (game_control.rs:329-342).
`none` models a panic escaping the dispatch (the `PositionUpdate` arm
unwraps `get_player`); `some (.error e, s)` models `Err` returned by the
`?` on `try_connect_player` with the state as left by it. -/
def handle_player_update (G : Geom) (ip_ids : Bool) (s : GameState G.V)
    (id : PlayerId) (update : ClientUpdate G.V) :
    Option (Except String Unit × GameState G.V) :=
  match update with
  | .PlayerConnected =>
    let r := try_connect_player G s id
    match r.1 with
    | .error e => some (.error e, r.2)
    | .ok _ => some (.ok (), r.2)
  | .PlayerDisconnected =>
    (disconnect_player G ip_ids s id).map (fun s' => (.ok (), s'))
  | .PositionUpdate position =>
    match lookupPlayer s.players id with
    | none => none
    | some p =>
      let ps := setPlayer s.players id { p with position := position }
      some (.ok (), { s with players := ps })
  | .ProjectileCreated proj =>
    some (.ok (), handle_projectile_created G s id proj)

/-- Wrapping `u64` subtraction `a - b` (`now_ms -
player_proj.projectile.origin.time_ms` in `progress_projectiles`,
game_control.rs:349).  Rust release builds wrap on underflow. -/
def u64_wrapping_sub (a b : Nat) : Nat :=
  (2 ^ 64 + a % 2 ^ 64 - b % 2 ^ 64) % 2 ^ 64

/-- The keep/drop decision of the `filter_map` in `progress_projectiles`
(game_control.rs:368-372): `Alive` is kept, `Dead` dropped,
`Unspecified` panics. -/
def enemy_keep {V : Type} (e : Enemy V) : Option Bool :=
  match e.status with
  | .Alive => some true
  | .Dead => some false
  | .Unspecified => none

/-- One enemy step of the `filter_map` closure in `progress_projectiles`
(game_control.rs:354-372), acting on the enemy at index `i` of the
state's enemy list.  The penetration budget is unwrapped first
(game_control.rs:355): a `none` budget is a panic.  On a hit the enemy's
health is reduced, the status is set to `Dead` only when the new health
is strictly negative (game_control.rs:362), and the budget is
decremented. -/
def hit_one (G : Geom) (proj : ProjectileSnaphot G.V) (damage : Int)
    (enemies : List (Enemy G.V)) (pens : Option Int) (i : Nat) :
    Option (List (Enemy G.V) × Option Int × Bool) :=
  match pens with
  | none => none
  | some p =>
    match enemies[i]? with
    | none => none
    | some enemy =>
      if 0 < p then
        if G.scans proj enemy then
          let health := enemy.health - damage
          let status := if health < 0 then EnemyStatus.Dead else enemy.status
          let enemy' := { enemy with health := health, status := status }
          match enemy_keep enemy' with
          | none => none
          | some keep => some (enemies.set i enemy', some (p - 1), keep)
        else
          match enemy_keep enemy with
          | none => none
          | some keep => some (enemies, some p, keep)
      else
        match enemy_keep enemy with
        | none => none
        | some keep => some (enemies, some p, keep)

/-- The `filter_map` pass of one projectile over the working list of
still-alive enemy indices (`remaining_alive_enemies`,
game_control.rs:352-374), threading the enemy list and the projectile's
budget. -/
def scan_enemies (G : Geom) (proj : ProjectileSnaphot G.V) (damage : Int) :
    List Nat → List (Enemy G.V) → Option Int →
    Option (List Nat × List (Enemy G.V) × Option Int)
  | [], enemies, pens => some ([], enemies, pens)
  | i :: rest, enemies, pens =>
    match hit_one G proj damage enemies pens i with
    | none => none
    | some (enemies', pens', keep) =>
      match scan_enemies G proj damage rest enemies' pens' with
      | none => none
      | some (rest', enemies'', pens'') =>
        some (if keep then i :: rest' else rest', enemies'', pens'')

/-- Processing of a single projectile in `progress_projectiles`
(game_control.rs:348-380): elapsed time via wrapping `u64` subtraction,
`delta_secs = delta_ms as f32 / 1000.0`, the scan pass, then the origin
advanced by `vel * delta_secs` and restamped to `now`. -/
def progress_one (G : Geom) (now_ms : Nat) (pp : PlayerProjectile G.V)
    (enemies : List (Enemy G.V)) (remaining : List Nat) :
    Option (PlayerProjectile G.V × List (Enemy G.V) × List Nat) :=
  let delta_ms := u64_wrapping_sub now_ms pp.projectile.origin.time_ms
  let delta_secs : Rat := (delta_ms : Rat) / 1000
  let pos_update_vector := G.smul pp.projectile.vel delta_secs
  match scan_enemies G pp.projectile pp.current_info.damage remaining enemies
      pp.current_info.num_penetrations with
  | none => none
  | some (remaining', enemies', pens') =>
    some ({ pp with
            projectile := { pp.projectile with origin :=
              { xy := G.add pp.projectile.origin.xy pos_update_vector,
                time_ms := now_ms } },
            current_info := { pp.current_info with num_penetrations := pens' } },
          enemies', remaining')

/-- The projectile loop of `progress_projectiles`: projectiles in list
order, the working enemy-index list shrinking across them. -/
def progress_loop (G : Geom) (now_ms : Nat) :
    List (PlayerProjectile G.V) → List (Enemy G.V) → List Nat →
    Option (List (PlayerProjectile G.V) × List (Enemy G.V))
  | [], enemies, _ => some ([], enemies)
  | pp :: rest, enemies, remaining =>
    match progress_one G now_ms pp enemies remaining with
    | none => none
    | some (pp', enemies', remaining') =>
      match progress_loop G now_ms rest enemies' remaining' with
      | none => none
      | some (rest', enemies'') => some (pp' :: rest', enemies'')

/-- `GameController::progress_projectiles` (game_control.rs:344-382).
The working list `remaining_alive_enemies` is initialised from all
enemies (no status filter, game_control.rs:346-347); every projectile is
processed and none is ever removed. -/
def progress_projectiles (G : Geom) (now_ms : Nat) (s : GameState G.V) :
    Option (GameState G.V) :=
  match progress_loop G now_ms s.projectiles s.enemies
      (List.range s.enemies.length) with
  | none => none
  | some (projectiles', enemies') =>
    some { s with projectiles := projectiles', enemies := enemies' }

/-- The `u32` id space of `utils.rs` (`api::EntityId`; the doc comments
on the three generators fix the width: "u32 with first two bits ..."). -/
def u32_size : Nat := 2 ^ 32

/-- `PlayerIdGenerator::MASK = 0b00 << (32 - 2)` (utils.rs:83). -/
def PLAYER_MASK : Nat := 0

/-- `EnemyIdGenerator::MASK = 0b01 << (32 - 2)` (utils.rs:94). -/
def ENEMY_MASK : Nat := 2 ^ 30

/-- `ProjectileIdGenerator::MASK = 0b10 << (32 - 2)` (utils.rs:105). -/
def PROJECTILE_MASK : Nat := 2 ^ 31

/-- `SerialIdGenerator::get_next_id` (utils.rs:53-61) on the counter
value `data`: panic (`none`) when the serial already occupies a mask
bit, else return `id | MASK` and the incremented counter. -/
def get_next_id (mask data : Nat) : Option (Nat × Nat) :=
  if data &&& mask ≠ 0 then none
  else some (data ||| mask, (data + 1) % u32_size)

/-- `n` sequential `get_next_id` calls from counter value `d`, returning
the ids issued and the final counter. -/
def run_gen (mask : Nat) : Nat → Nat → Option (List Nat × Nat)
  | 0, d => some ([], d)
  | n + 1, d =>
    match get_next_id mask d with
    | none => none
    | some (i, d') =>
      match run_gen mask n d' with
      | none => none
      | some (ids, df) => some (i :: ids, df)

/-- Trivial concrete geometry used to evaluate the control flow on
closed inputs. -/
abbrev UnitGeom : Geom :=
  { V := Unit, zero := (), add := fun _ _ => (), smul := fun _ _ => (),
    normalize := fun v => v, scans := fun _ _ => true }


/-! Concrete inputs over the trivial geometry, used to evaluate the
embedded code at closed points. -/

def pos0 : PositionStamped Unit := { xy := (), time_ms := 0 }

def playerC : Player Unit :=
  { position := pos0, connection_status := .Connected,
    authr_status := .GoodStanding }

/-- A state holding one already-Connected player "p". -/
def stateConnected : GameState Unit :=
  { players := [("p", playerC)], enemies := [], projectiles := [] }

/-- The empty world state. -/
def stateEmpty : GameState Unit :=
  { players := [], enemies := [], projectiles := [] }

def enemyAlive10 : Enemy Unit :=
  { enemy_id := 0, position := pos0, health := 10, status := .Alive }

def enemyDead5 : Enemy Unit :=
  { enemy_id := 1, position := pos0, health := 5, status := .Dead }

def shotProjectile : ProjectileSnaphot Unit :=
  { projectile_type := .Projectile0, origin := pos0, vel := () }

def shotHitscan : ProjectileSnaphot Unit :=
  { projectile_type := .HitScan0, origin := pos0, vel := () }

/-- In-flight projectile with the static Projectile0 info (damage 10,
budget 1). -/
def projPen1 : PlayerProjectile Unit :=
  { player_id := "p", projectile := shotProjectile,
    current_info := lookup_projectile_info .Projectile0 }

/-- In-flight projectile with an unset (None) penetration budget. -/
def projPenNone : PlayerProjectile Unit :=
  { player_id := "p", projectile := shotProjectile,
    current_info := { speed := some 2, damage := 10, num_penetrations := none } }

/-- In-flight projectile whose penetration budget is exhausted (0). -/
def projPen0 : PlayerProjectile Unit :=
  { player_id := "p", projectile := shotProjectile,
    current_info := { speed := some 2, damage := 10, num_penetrations := some 0 } }

/-- In-flight projectile stamped at client-supplied time 5 ms. -/
def projLate : PlayerProjectile Unit :=
  { player_id := "p",
    projectile := { projectile_type := .Projectile0,
                    origin := { xy := (), time_ms := 5 }, vel := () },
    current_info := lookup_projectile_info .Projectile0 }

def statePen1 : GameState Unit :=
  { players := [], enemies := [enemyAlive10], projectiles := [projPen1] }

def statePenNone : GameState Unit :=
  { players := [], enemies := [enemyAlive10], projectiles := [projPenNone] }

def statePen0 : GameState Unit :=
  { players := [], enemies := [enemyAlive10], projectiles := [projPen0] }

/-- The exhausted projectile of `statePen0` as restamped by a tick at
`now_ms = 1000`. -/
def projPen0After : PlayerProjectile Unit :=
  { player_id := "p",
    projectile := { projectile_type := .Projectile0,
                    origin := { xy := (), time_ms := 1000 }, vel := () },
    current_info := { speed := some 2, damage := 10, num_penetrations := some 0 } }

/-- The value of one `progress_projectiles` tick at `now_ms = 1000` on
`statePen0`: the exhausted projectile is restamped but not removed. -/
def statePen0After : GameState Unit :=
  { players := [], enemies := [enemyAlive10], projectiles := [projPen0After] }

def stateDead : GameState Unit :=
  { players := [], enemies := [enemyDead5], projectiles := [] }



/-! Helper lemmas about the embedded operations. -/

lemma removePlayer_of_lookup_none {V : Type} {ps : List (PlayerId × Player V)}
    {id : PlayerId} (h : lookupPlayer ps id = none) : removePlayer ps id = ps := by
  unfold lookupPlayer at h
  rw [Option.map_eq_none'] at h
  rw [List.find?_eq_none] at h
  unfold removePlayer
  apply List.filter_eq_self.mpr
  intro kv hkv
  simpa using h kv hkv

lemma hit_one_nonpos {G : Geom} {proj : ProjectileSnaphot G.V} {damage : Int}
    {enemies : List (Enemy G.V)} {b : Int} {i : Nat}
    {out : List (Enemy G.V) × Option Int × Bool}
    (hb0 : b ≤ 0) (h : hit_one G proj damage enemies (some b) i = some out) :
    out.1 = enemies ∧ out.2.1 = some b := by
  unfold hit_one at h
  split at h
  · cases h
  next p hp =>
    injection hp with hp
    subst hp
    split at h
    · cases h
    next enemy he =>
      rw [if_neg (by omega)] at h
      split at h
      · cases h
      next keep hk =>
        injection h with h
        subst h
        exact ⟨rfl, rfl⟩

lemma scan_enemies_nonpos {G : Geom} {proj : ProjectileSnaphot G.V} {damage : Int}
    {b : Int} (hb0 : b ≤ 0) :
    ∀ (rem : List Nat) (enemies : List (Enemy G.V))
      (out : List Nat × List (Enemy G.V) × Option Int),
      scan_enemies G proj damage rem enemies (some b) = some out →
      out.2.1 = enemies ∧ out.2.2 = some b := by
  intro rem
  induction rem with
  | nil =>
    intro es out h
    unfold scan_enemies at h
    injection h with h
    subst h
    exact ⟨rfl, rfl⟩
  | cons i rest ih =>
    intro es out h
    unfold scan_enemies at h
    split at h
    · cases h
    next es' pens' keep hone =>
      obtain ⟨h1, h2⟩ := hit_one_nonpos hb0 hone
      dsimp only at h1 h2
      subst h1
      subst h2
      split at h
      · cases h
      next rest' es'' pens'' hrec =>
        injection h with h
        subst h
        obtain ⟨ha, hb'⟩ := ih _ _ hrec
        exact ⟨ha, hb'⟩

lemma progress_one_nonpos {G : Geom} {now_ms : Nat} {pp : PlayerProjectile G.V}
    {enemies : List (Enemy G.V)} {remaining : List Nat}
    {out : PlayerProjectile G.V × List (Enemy G.V) × List Nat} {b : Int}
    (hb : pp.current_info.num_penetrations = some b) (hb0 : b ≤ 0)
    (h : progress_one G now_ms pp enemies remaining = some out) :
    out.2.1 = enemies ∧ out.1.current_info = pp.current_info := by
  unfold progress_one at h
  rw [hb] at h
  split at h
  · cases h
  next rem' es' pens' hscan =>
    obtain ⟨h1, h2⟩ := scan_enemies_nonpos hb0 _ _ _ hscan
    dsimp only at h1 h2
    injection h with h
    subst h
    refine ⟨h1, ?_⟩
    dsimp only
    rw [h2, ← hb]

lemma progress_loop_length {G : Geom} {now_ms : Nat} :
    ∀ (pps : List (PlayerProjectile G.V)) (enemies : List (Enemy G.V))
      (remaining : List Nat) (out : List (PlayerProjectile G.V) × List (Enemy G.V)),
      progress_loop G now_ms pps enemies remaining = some out →
      out.1.length = pps.length := by
  intro pps
  induction pps with
  | nil =>
    intro es rem out h
    unfold progress_loop at h
    injection h with h
    subst h
    rfl
  | cons pp rest ih =>
    intro es rem out h
    unfold progress_loop at h
    split at h
    · cases h
    next pp' es' rem' hone =>
      split at h
      · cases h
      next rest' es'' hrec =>
        injection h with h
        subst h
        simpa using ih es' rem' (rest', es'') hrec

lemma progress_loop_nonpos {G : Geom} {now_ms : Nat} :
    ∀ (pps : List (PlayerProjectile G.V)) (enemies : List (Enemy G.V))
      (remaining : List Nat) (out : List (PlayerProjectile G.V) × List (Enemy G.V)),
      (∀ pp ∈ pps, ∃ b, pp.current_info.num_penetrations = some b ∧ b ≤ 0) →
      progress_loop G now_ms pps enemies remaining = some out →
      out.2 = enemies
      ∧ out.1.map (fun pp => pp.current_info) = pps.map (fun pp => pp.current_info) := by
  intro pps
  induction pps with
  | nil =>
    intro es rem out _ h
    unfold progress_loop at h
    injection h with h
    subst h
    exact ⟨rfl, rfl⟩
  | cons pp rest ih =>
    intro es rem out hb h
    unfold progress_loop at h
    split at h
    · cases h
    next pp' es' rem' hone =>
      split at h
      · cases h
      next rest' es'' hrec =>
        injection h with h
        subst h
        obtain ⟨b, hpen, hb0⟩ := hb pp (by simp)
        obtain ⟨h1, h2⟩ := progress_one_nonpos hpen hb0 hone
        dsimp only at h1 h2
        subst h1
        obtain ⟨h3, h4⟩ := ih _ rem' _ (fun q hq => hb q (by simp [hq])) hrec
        dsimp only at h3 h4
        refine ⟨h3, ?_⟩
        simpa [h2] using h4

lemma land_eq_zero_iff_testBit {a m : Nat} :
    a &&& m = 0 ↔ ∀ j, a.testBit j = false ∨ m.testBit j = false := by
  constructor
  · intro h j
    have hj := congrArg (fun x => Nat.testBit x j) h
    simp only [Nat.testBit_land, Nat.zero_testBit] at hj
    cases ha : a.testBit j <;> cases hm : m.testBit j <;> simp_all
  · intro h
    apply Nat.eq_of_testBit_eq
    intro j
    simp only [Nat.testBit_land, Nat.zero_testBit]
    rcases h j with h' | h' <;> simp [h']

lemma lor_inj_of_land_eq_zero {a b m : Nat} (ha : a &&& m = 0) (hb : b &&& m = 0)
    (h : a ||| m = b ||| m) : a = b := by
  apply Nat.eq_of_testBit_eq
  intro j
  have hj := congrArg (fun x => Nat.testBit x j) h
  simp only [Nat.testBit_lor] at hj
  have h1 := land_eq_zero_iff_testBit.mp ha j
  have h2 := land_eq_zero_iff_testBit.mp hb j
  cases hma : a.testBit j <;> cases hmb : b.testBit j <;>
    cases hmm : m.testBit j <;> simp_all

lemma lor_land_self (a m : Nat) : (a ||| m) &&& m = m := by
  apply Nat.eq_of_testBit_eq
  intro j
  simp only [Nat.testBit_land, Nat.testBit_lor]
  cases a.testBit j <;> cases m.testBit j <;> simp

lemma two_pow_le_of_testBit {m j : Nat} (h : Nat.testBit m j = true) : 2 ^ j ≤ m := by
  by_contra hlt
  push_neg at hlt
  rw [Nat.testBit_eq_false_of_lt hlt] at h
  cases h

lemma all_ones_land_of_lt {m : Nat} (hm : m < 2 ^ 32) : (2 ^ 32 - 1) &&& m = m := by
  apply Nat.eq_of_testBit_eq
  intro j
  simp only [Nat.testBit_land]
  rcases lt_or_ge j 32 with hj | hj
  · rw [Nat.testBit_two_pow_sub_one]
    simp [hj]
  · have hmj : m.testBit j = false :=
      Nat.testBit_eq_false_of_lt
        (lt_of_lt_of_le hm (Nat.pow_le_pow_right (by norm_num) hj))
    simp [hmj]

lemma run_gen_spec {mask : Nat} (hm : mask ≠ 0) (hmlt : mask < u32_size) :
    ∀ (n d : Nat) (ids : List Nat) (df : Nat), d < u32_size →
      run_gen mask n d = some (ids, df) →
      df = d + n ∧ (∀ k, k < n → (d + k) &&& mask = 0)
      ∧ ids = (List.range n).map (fun k => (d + k) ||| mask) := by
  intro n
  induction n with
  | zero =>
    intro d ids df hd h
    unfold run_gen at h
    cases h
    exact ⟨rfl, fun k hk => absurd hk (Nat.not_lt_zero k), rfl⟩
  | succ n ih =>
    intro d ids df hd h
    unfold run_gen at h
    split at h
    · cases h
    next i d' hnext =>
      unfold get_next_id at hnext
      split at hnext
      · cases hnext
      next hguard' =>
      rw [not_not] at hguard'
      have hguard : d &&& mask = 0 := hguard'
      injection hnext with hnext
      injection hnext with hi hd'
      subst hi
      subst hd'
      have hne : d ≠ u32_size - 1 := by
        intro hd1
        subst hd1
        rw [show u32_size - 1 = 2 ^ 32 - 1 from rfl, all_ones_land_of_lt hmlt] at hguard
        exact hm hguard
      have hd1 : d + 1 < u32_size := by
        have h32 : (0 : Nat) < u32_size := by decide
        omega
      rw [Nat.mod_eq_of_lt hd1] at h
      split at h
      · cases h
      next ids' df' hrec =>
        injection h with h
        injection h with h1 h2
        subst h1
        subst h2
        obtain ⟨hdf, hk, hids⟩ := ih (d + 1) ids' df' hd1 hrec
        refine ⟨by omega, ?_, ?_⟩
        · intro k hk'
          cases k with
          | zero => simpa using hguard
          | succ k =>
            have := hk k (by omega)
            have harith : d + (k + 1) = d + 1 + k := by omega
            rw [harith]
            exact this
        · have htail : List.map ((fun k => (d + k) ||| mask) ∘ Nat.succ) (List.range n)
              = List.map (fun k => (d + 1 + k) ||| mask) (List.range n) := by
            apply List.map_congr_left
            intro k hk2
            simp only [Function.comp_apply]
            congr 1
            omega
          rw [hids, List.range_succ_eq_map, List.map_cons, List.map_map, htail]
          simp

/-! The claims. -/

/-- Claim C1 (code_bug evidence): in `progress_projectiles` the death
check is `health < 0`, not `health ≤ 0`.  Evaluating one tick on a state
with an Alive enemy of health 10 hit by a projectile of damage 10 and
budget 1: the enemy ends with health exactly 0 and status still Alive,
contradicting the claim (and the spec, and the `<= 0` check used by the
hitscan path of `handle_projectile_created`). -/
theorem c1_projectile_hit_exact_zero_health_stays_alive :
    (progress_projectiles UnitGeom 1000 statePen1).map
        (fun s => s.enemies.map (fun e => (e.health, e.status)))
      = some [((0 : Int), EnemyStatus.Alive)] := by decide

/-- Claim C2 (confirmed): `try_connect_player` on an id whose player is
already Connected returns the duplicate-id error (the message contains
the id verbatim) and returns the state unchanged - the whole players
map, hence the existing record with all its fields, is untouched. -/
theorem c2_duplicate_connect_rejected_state_unchanged (G : Geom)
    (s : GameState G.V) (id : PlayerId) (p : Player G.V)
    (h1 : lookupPlayer s.players id = some p)
    (h2 : p.connection_status = .Connected) :
    try_connect_player G s id
      = (.error ("cannot have duplicate client addresses, got [" ++ id ++ "]"), s) := by
  unfold try_connect_player
  rw [h1]
  dsimp only
  rw [h2]

/-- Witness for C2: the duplicate connect of "p" against `stateConnected`
is rejected with the id in the message and the state returned intact. -/
theorem c2_duplicate_connect_witness :
    try_connect_player UnitGeom stateConnected "p"
      = (.error ("cannot have duplicate client addresses, got [" ++ "p" ++ "]"),
         stateConnected) :=
  c2_duplicate_connect_rejected_state_unchanged UnitGeom stateConnected "p"
    playerC (by decide) rfl

/-- Claim C3 (code_bug evidence): `progress_projectiles` unwraps
`num_penetrations` (game_control.rs:355), so a projectile whose budget
is None panics as soon as any enemy is scanned, instead of being treated
as unlimited as the claim (and the field's own doc comment in
api_types.rs) states. -/
theorem c3_unset_penetration_budget_panics :
    progress_projectiles UnitGeom 1000 statePenNone = none := by decide

/-- Counterexample for C4: after a full `progress_projectiles` tick the
projectile with exhausted budget (0) is still in the projectile list
(length 1, not removed), refuting the removed-at-end-of-tick part of the
claim. -/
theorem c4_exhausted_projectile_not_removed :
    (progress_projectiles UnitGeom 1000 statePen0).map
      (fun s => s.projectiles.length) = some 1 := by decide

/-- Claim C4 (amended): a projectile whose budget is exhausted causes no
further damage (all enemies and all budgets are unchanged when every
budget is ≤ 0), but `progress_projectiles` never removes projectiles:
the projectile list always keeps its length. -/
theorem c4_exhausted_budget_no_damage_but_no_removal (G : Geom)
    (now_ms : Nat) (s s' : GameState G.V)
    (h : progress_projectiles G now_ms s = some s') :
    s'.projectiles.length = s.projectiles.length
    ∧ ((∀ pp ∈ s.projectiles, ∃ b, pp.current_info.num_penetrations = some b ∧ b ≤ 0) →
        s'.enemies = s.enemies
        ∧ s'.projectiles.map (fun pp => pp.current_info)
            = s.projectiles.map (fun pp => pp.current_info)) := by
  unfold progress_projectiles at h
  split at h
  · cases h
  next projectiles' enemies' hloop =>
    injection h with h
    subst h
    constructor
    · exact progress_loop_length s.projectiles s.enemies _ (projectiles', enemies') hloop
    · intro hb
      exact progress_loop_nonpos s.projectiles s.enemies _ (projectiles', enemies') hb hloop

/-- Witness for C4: on `statePen0` (one Alive enemy, one projectile with
budget 0) a tick keeps the projectile count and leaves the enemy list
unchanged. -/
theorem c4_exhausted_budget_witness :
    statePen0After.projectiles.length = statePen0.projectiles.length
    ∧ statePen0After.enemies = statePen0.enemies := by
  have hall : ∀ pp ∈ statePen0.projectiles,
      ∃ b, pp.current_info.num_penetrations = some b ∧ b ≤ 0 := by
    intro pp hpp
    have hmem : pp = projPen0 := by
      have hl : statePen0.projectiles = [projPen0] := rfl
      rw [hl] at hpp
      simpa using hpp
    subst hmem
    exact ⟨0, rfl, le_refl 0⟩
  have h := c4_exhausted_budget_no_damage_but_no_removal UnitGeom 1000 statePen0
    statePen0After (by decide)
  exact ⟨h.1, (h.2 hall).1⟩

/-- Counterexample for C5: the hitscan resolution of
`handle_projectile_created` damages an enemy whose status is Dead - the
Dead enemy at health 5 ends at health 4, refuting "a Dead enemy is never
ray-tested against and never receives damage". -/
theorem c5_dead_enemy_damaged_by_hitscan :
    (handle_projectile_created UnitGeom stateDead "p" shotHitscan).enemies
      = [{ enemy_id := 1, position := pos0, health := 4, status := .Dead }] := by
  decide

/-- Claim C5 (amended): Dead enemies are not excluded from
hit-detection.  The hitscan pass damages a hit enemy regardless of its
Dead status, and `progress_projectiles` seeds its working list with all
enemies, so an enemy already Dead at the start of a tick is ray-tested
and damaged by the first projectile (it is only dropped from the list
for subsequent projectiles of the same tick). -/
theorem c5_dead_enemies_not_excluded (G : Geom) :
    (∀ (s : GameState G.V) (id : PlayerId) (proj : ProjectileSnaphot G.V)
        (j : Nat) (e : Enemy G.V),
        (lookup_projectile_info proj.projectile_type).speed = none →
        s.enemies[j]? = some e → e.status = .Dead → G.scans proj e = true →
        ∃ e', (handle_projectile_created G s id proj).enemies[j]? = some e'
          ∧ e'.health = e.health - (lookup_projectile_info proj.projectile_type).damage
          ∧ e'.status = .Dead)
    ∧ (∀ (now_ms : Nat) (ps : List (PlayerId × Player G.V)) (e : Enemy G.V)
        (pp : PlayerProjectile G.V) (b : Int),
        pp.current_info.num_penetrations = some b → 0 < b →
        e.status = .Dead → G.scans pp.projectile e = true →
        ∃ e' pps',
          progress_projectiles G now_ms
            { players := ps, enemies := [e], projectiles := [pp] }
            = some { players := ps, enemies := [e'], projectiles := pps' }
          ∧ e'.health = e.health - pp.current_info.damage
          ∧ e'.status = .Dead) := by
  constructor
  · intro s id proj j e hspeed hj hdead hscan
    simp only [handle_projectile_created, hspeed]
    rw [List.getElem?_map, hj, Option.map_some', if_pos hscan]
    by_cases hc : e.health - (lookup_projectile_info proj.projectile_type).damage ≤ 0
    · rw [if_pos hc]
      exact ⟨_, rfl, rfl, rfl⟩
    · rw [if_neg hc]
      exact ⟨_, rfl, rfl, hdead⟩
  · intro now_ms ps e pp b hpen hbpos hdead hscan
    have hstat : (if e.health - pp.current_info.damage < 0
        then EnemyStatus.Dead else e.status) = EnemyStatus.Dead := by
      split
      · rfl
      · exact hdead
    refine ⟨{ enemy_id := e.enemy_id, position := e.position,
              health := e.health - pp.current_info.damage,
              status := EnemyStatus.Dead },
            [{ pp with
               projectile := { pp.projectile with origin :=
                 { xy := G.add pp.projectile.origin.xy
                     (G.smul pp.projectile.vel
                       ((u64_wrapping_sub now_ms pp.projectile.origin.time_ms : Rat) / 1000)),
                   time_ms := now_ms } },
               current_info := { pp.current_info with
                                 num_penetrations := some (b - 1) } }],
            ?_, rfl, rfl⟩
    unfold progress_projectiles progress_loop progress_one
    rw [show List.range (List.length [e]) = [0] from rfl]
    unfold scan_enemies hit_one
    rw [hpen]
    simp only [List.getElem?_cons_zero, if_pos hbpos, hscan, eq_self_iff_true,
      if_true, hstat]
    unfold enemy_keep
    simp only [List.set]
    rfl

/-- Witness for C5: the hitscan arm applied to the Dead enemy of
`stateDead` yields an enemy record with health decreased by the table
damage. -/
theorem c5_dead_enemies_witness :
    ∃ e', (handle_projectile_created UnitGeom stateDead "p" shotHitscan).enemies[0]?
        = some e'
      ∧ e'.health = enemyDead5.health
          - (lookup_projectile_info shotHitscan.projectile_type).damage
      ∧ e'.status = .Dead :=
  (c5_dead_enemies_not_excluded UnitGeom).1 stateDead "p" shotHitscan 0 enemyDead5
    rfl (by decide) rfl rfl

/-- Claim C6 (confirmed): dispatching an AttackCreated intent through
`handle_projectile_created`: with hitscan type (speed None) no
projectile is appended and every ray-hit enemy takes the table damage
with the `≤ 0 → Dead` death check in the same call; with speed Some v
exactly one projectile is appended, carrying the normalized and scaled
velocity and a fresh copy of the static table entry, and no enemy is
touched. -/
theorem c6_attack_created_dispatch (G : Geom) (s : GameState G.V) (id : PlayerId)
    (proj : ProjectileSnaphot G.V) :
    ((lookup_projectile_info proj.projectile_type).speed = none →
      (handle_projectile_created G s id proj).projectiles = s.projectiles
      ∧ (handle_projectile_created G s id proj).players = s.players
      ∧ ∀ (j : Nat) (e : Enemy G.V), s.enemies[j]? = some e →
          (G.scans proj e = true →
            ∃ e', (handle_projectile_created G s id proj).enemies[j]? = some e'
              ∧ e'.health = e.health - (lookup_projectile_info proj.projectile_type).damage
              ∧ (e'.health ≤ 0 → e'.status = .Dead)
              ∧ (0 < e'.health → e'.status = e.status))
          ∧ (G.scans proj e = false →
              (handle_projectile_created G s id proj).enemies[j]? = some e))
    ∧ (∀ v, (lookup_projectile_info proj.projectile_type).speed = some v →
        (handle_projectile_created G s id proj).enemies = s.enemies
        ∧ (handle_projectile_created G s id proj).players = s.players
        ∧ (handle_projectile_created G s id proj).projectiles
            = s.projectiles ++
              [{ player_id := id,
                 projectile :=
                   { projectile_type := proj.projectile_type,
                     origin := proj.origin,
                     vel := G.smul (G.normalize proj.vel) v },
                 current_info := lookup_projectile_info proj.projectile_type }]) := by
  constructor
  · intro hspeed
    simp only [handle_projectile_created, hspeed]
    refine ⟨trivial, trivial, ?_⟩
    intro j e hj
    rw [List.getElem?_map, hj, Option.map_some']
    constructor
    · intro hscan
      rw [if_pos hscan]
      by_cases hc : e.health - (lookup_projectile_info proj.projectile_type).damage ≤ 0
      · rw [if_pos hc]
        exact ⟨_, rfl, rfl, fun _ => rfl, fun hgt => absurd hc (not_le.mpr hgt)⟩
      · rw [if_neg hc]
        exact ⟨_, rfl, rfl, fun hle => absurd hle hc, fun _ => rfl⟩
    · intro hscan
      rw [if_neg (by simp [hscan])]
  · intro v hv
    simp only [handle_projectile_created, hv]
    exact ⟨trivial, trivial, trivial⟩

/-- Witness for C6: firing Projectile0 (speed 2) from the empty state
appends exactly the projectile with normalized-and-scaled velocity and a
copy of the static info. -/
theorem c6_attack_created_witness :
    (handle_projectile_created UnitGeom stateEmpty "p" shotProjectile).projectiles
      = stateEmpty.projectiles ++
        [{ player_id := "p",
           projectile :=
             { projectile_type := shotProjectile.projectile_type,
               origin := shotProjectile.origin,
               vel := UnitGeom.smul (UnitGeom.normalize shotProjectile.vel) 2 },
           current_info := lookup_projectile_info shotProjectile.projectile_type }] :=
  ((c6_attack_created_dispatch UnitGeom stateEmpty "p" shotProjectile).2 2 rfl).2.2

/-- Counterexample for C7: ids from different category generators can
collide.  The player generator (mask 0, so its guard is vacuous) at
counter value 2^30 returns id 2^30, which is exactly the id the enemy
generator returns at counter value 0. -/
theorem c7_cross_category_id_collision :
    (get_next_id PLAYER_MASK (2 ^ 30)).map Prod.fst = some (2 ^ 30)
    ∧ (get_next_id ENEMY_MASK 0).map Prod.fst = some (2 ^ 30) := by decide

/-- Claim C7 (amended): for the enemy and projectile categories, any run
of successful `get_next_id` calls returns pairwise-distinct ids that all
carry the category's mask bits (the guard panics before the serial can
overflow the category's own mask), and such ids never collide with a
player id issued from a serial below 2^30; the guard checks only the
category's own mask bits, so cross-category disjointness does not hold
beyond that (see the counterexample). -/
theorem c7_id_allocation_within_category (mask : Nat) (n d : Nat)
    (ids : List Nat) (df : Nat)
    (hm : mask = ENEMY_MASK ∨ mask = PROJECTILE_MASK)
    (hd : d < u32_size)
    (hrun : run_gen mask n d = some (ids, df)) :
    List.Pairwise (· ≠ ·) ids
    ∧ (∀ i ∈ ids, i &&& mask = mask ∧ 2 ^ 30 ≤ i)
    ∧ (∀ dp ip dp', dp < 2 ^ 30 → get_next_id PLAYER_MASK dp = some (ip, dp') →
        ip ∉ ids) := by
  have hm0 : mask ≠ 0 := by
    rcases hm with rfl | rfl <;> decide
  have hmlt : mask < u32_size := by
    rcases hm with rfl | rfl <;> decide
  obtain ⟨hdf, hdisj, hids⟩ := run_gen_spec hm0 hmlt n d ids df hd hrun
  have htag : ∀ i ∈ ids, i &&& mask = mask ∧ 2 ^ 30 ≤ i := by
    intro i hi
    rw [hids] at hi
    obtain ⟨k, hk, rfl⟩ := List.mem_map.mp hi
    refine ⟨lor_land_self _ _, ?_⟩
    have hbit : ∃ j, 30 ≤ j ∧ mask.testBit j = true := by
      rcases hm with rfl | rfl
      · exact ⟨30, le_refl 30, Nat.testBit_two_pow_self⟩
      · exact ⟨31, by omega, Nat.testBit_two_pow_self⟩
    obtain ⟨j, hj30, hjbit⟩ := hbit
    have hjset : Nat.testBit ((d + k) ||| mask) j = true := by
      rw [Nat.testBit_lor, hjbit, Bool.or_true]
    calc 2 ^ 30 ≤ 2 ^ j := Nat.pow_le_pow_right (by norm_num) hj30
    _ ≤ (d + k) ||| mask := two_pow_le_of_testBit hjset
  refine ⟨?_, htag, ?_⟩
  · rw [hids, List.pairwise_iff_getElem]
    intro a b ha hb hab
    simp only [List.length_map, List.length_range] at ha hb
    rw [List.getElem_map, List.getElem_map, List.getElem_range, List.getElem_range]
    intro heq
    have h1 := hdisj a ha
    have h2 := hdisj b hb
    have := lor_inj_of_land_eq_zero h1 h2 heq
    omega
  · intro dp ip dp' hdp hplayer hmem
    unfold get_next_id at hplayer
    rw [if_neg (by simp [PLAYER_MASK])] at hplayer
    injection hplayer with hplayer
    injection hplayer with h1 h2
    have hip : ip = dp := by
      rw [← h1]
      simp [PLAYER_MASK]
    have h30 := (htag ip hmem).2
    rw [hip] at h30
    omega

/-- Witness for C7: two enemy allocations from counter 0 yield the
distinct tagged ids 2^30 and 2^30 + 1. -/
theorem c7_id_allocation_witness :
    run_gen ENEMY_MASK 2 0 = some ([2 ^ 30, 2 ^ 30 + 1], 2)
    ∧ List.Pairwise (· ≠ ·) [2 ^ 30, 2 ^ 30 + 1] := by
  have h : run_gen ENEMY_MASK 2 0 = some ([2 ^ 30, 2 ^ 30 + 1], 2) := by decide
  exact ⟨h, (c7_id_allocation_within_category ENEMY_MASK 2 0 [2 ^ 30, 2 ^ 30 + 1] 2
    (Or.inl rfl) (by decide) h).1⟩

/-- Counterexample for C8: dispatching a Disconnect for an id that is
not present (empty state, default identity policy) returns
`some (.ok (), _)` - a silent success, not the error value the claim
requires. -/
theorem c8_unknown_disconnect_silently_succeeds :
    handle_player_update UnitGeom false stateEmpty "q" .PlayerDisconnected
      = some (.ok (), stateEmpty) := rfl

/-- Claim C8 (amended): a Disconnect dispatch never surfaces an error
value: whenever it returns at all it returns ok (under either identity
policy), under the default policy it always silently succeeds (with the
state unchanged when the id is unknown), and under the
ip-address-player-ids policy an unknown id panics in `get_player`
(tearing down the controller) instead of returning an error. -/
theorem c8_disconnect_never_error (G : Geom) (ip_ids : Bool) (s : GameState G.V)
    (id : PlayerId) :
    (∀ r s', handle_player_update G ip_ids s id .PlayerDisconnected = some (r, s') →
      r = .ok ())
    ∧ (∃ s1, handle_player_update G false s id .PlayerDisconnected = some (.ok (), s1))
    ∧ (lookupPlayer s.players id = none →
        handle_player_update G true s id .PlayerDisconnected = none
        ∧ handle_player_update G false s id .PlayerDisconnected = some (.ok (), s)) := by
  refine ⟨?_, ?_, ?_⟩
  · intro r s' h
    unfold handle_player_update at h
    rw [Option.map_eq_some'] at h
    obtain ⟨a, _, ha⟩ := h
    exact (Prod.mk.injEq _ _ _ _ ▸ ha).1.symm ▸ rfl
  · exact ⟨_, rfl⟩
  · intro h
    constructor
    · unfold handle_player_update disconnect_player
      rw [if_pos rfl, h]
      rfl
    · unfold handle_player_update disconnect_player
      rw [if_neg (by simp), removePlayer_of_lookup_none h]
      rfl

/-- Witness for C8: for the unknown id "q" in the empty state, the
ip-address policy panics and the default policy silently succeeds. -/
theorem c8_disconnect_witness :
    handle_player_update UnitGeom true stateEmpty "q" .PlayerDisconnected = none
    ∧ handle_player_update UnitGeom false stateEmpty "q" .PlayerDisconnected
        = some (.ok (), stateEmpty) :=
  (c8_disconnect_never_error UnitGeom true stateEmpty "q").2.2 rfl

/-- Claim C9 (confirmed): dispatching a PositionUpdate for an id absent
from the players map panics (`get_player` unwraps the missing entry), so
`handle_player_update` is modelled as returning none rather than an
error value - the panic escapes the dispatch and kills the controller
loop. -/
theorem c9_position_update_unknown_id_panics (G : Geom) (ip_ids : Bool)
    (s : GameState G.V) (id : PlayerId) (position : PositionStamped G.V)
    (h : lookupPlayer s.players id = none) :
    handle_player_update G ip_ids s id (.PositionUpdate position) = none := by
  unfold handle_player_update
  rw [h]

/-- Witness for C9: a PositionUpdate for "q" in the empty state panics. -/
theorem c9_position_update_witness :
    handle_player_update UnitGeom false stateEmpty "q" (.PositionUpdate pos0) = none :=
  c9_position_update_unknown_id_panics UnitGeom false stateEmpty "q" pos0 rfl

/-- Claim C10 (confirmed): the per-tick elapsed time is the wrapping
u64 subtraction `now_ms - origin.time_ms`, where `origin.time_ms` of a
fresh projectile is the client-supplied timestamp (preserved verbatim by
`handle_projectile_created`, see C6).  When the stored timestamp exceeds
`now_ms` the subtraction wraps to `2^64 - (time_ms - now_ms)` - a huge
nonzero delta that is fed straight into the kinematic update - instead
of being clamped to zero. -/
theorem c10_timestamp_underflow_wraps (G : Geom) (now_ms : Nat)
    (ps : List (PlayerId × Player G.V)) (pp : PlayerProjectile G.V)
    (h1 : pp.projectile.origin.time_ms < 2 ^ 64) (h2 : now_ms < 2 ^ 64)
    (h3 : now_ms < pp.projectile.origin.time_ms) :
    u64_wrapping_sub now_ms pp.projectile.origin.time_ms
      = 2 ^ 64 - (pp.projectile.origin.time_ms - now_ms)
    ∧ u64_wrapping_sub now_ms pp.projectile.origin.time_ms ≠ 0
    ∧ progress_projectiles G now_ms
        { players := ps, enemies := [], projectiles := [pp] }
      = some { players := ps, enemies := [],
               projectiles := [{ pp with projectile := { pp.projectile with origin :=
                 { xy := G.add pp.projectile.origin.xy
                     (G.smul pp.projectile.vel
                       (((2 ^ 64 - (pp.projectile.origin.time_ms - now_ms) : Nat) : Rat) / 1000)),
                   time_ms := now_ms } } }] } := by
  have key : u64_wrapping_sub now_ms pp.projectile.origin.time_ms
      = 2 ^ 64 - (pp.projectile.origin.time_ms - now_ms) := by
    unfold u64_wrapping_sub
    rw [Nat.mod_eq_of_lt h2, Nat.mod_eq_of_lt h1]
    have hle : pp.projectile.origin.time_ms ≤ 2 ^ 64 := le_of_lt h1
    rw [Nat.mod_eq_of_lt (by omega)]
    omega
  refine ⟨key, by omega, ?_⟩
  unfold progress_projectiles progress_loop progress_one
  rw [show List.range (List.length ([] : List (Enemy G.V))) = [] from rfl]
  unfold scan_enemies
  rw [key]
  rfl

/-- Witness for C10: at `now_ms = 0` a projectile stamped at time 5
yields the wrapped delta `2^64 - 5`, not zero. -/
theorem c10_timestamp_underflow_witness :
    u64_wrapping_sub 0 projLate.projectile.origin.time_ms = 2 ^ 64 - 5
    ∧ u64_wrapping_sub 0 projLate.projectile.origin.time_ms ≠ 0 := by
  have h := c10_timestamp_underflow_wraps UnitGeom 0 [] projLate
    (by decide) (by decide) (by decide)
  exact ⟨h.1, h.2.1⟩

end Tide
